import Mathlib

/-!
Verification of the AreoDrone mission-control backend (`backend/main.py`)
against its natural-language specification.

The backend drives a drone through a scripted delivery mission
(arm → takeoff → navigate → land → release payload → return → land),
tracks mission records, and broadcasts events to WebSocket subscribers.

Modelling conventions:
* machine reals (`float` coordinates, distances, altitudes) are embedded as `ℚ`;
* the polling loops of the source (`while True: ...; time.sleep(1)`) are
  embedded as fuel-indexed structural recursions; one unit of fuel is one
  loop iteration, and telemetry is a function from the read index (≈ seconds,
  since every iteration sleeps one second) to the observed value;
* fallible operations (telemetry reads that may raise) are embedded as
  `Option`-valued reads; a raised exception is `none`;
* the source computes `distance = ((dlat)**2 + (dlon)**2) ** 0.5` and compares
  it against constants; the navigation loop below is parametric in the
  per-tick distance value, and `sqDist` links a distance to the coordinates
  through the hypothesis `dist t ^ 2 = sqDist …` (the exact nonnegative root).
-/

namespace AreoDrone

/-- Static configured home latitude, `HOME_LOCATION` in `backend/main.py`
(`{"lat": 16.463000, "lon": 80.507800}`). -/
def HOME_LOCATION_lat : ℚ := 16463 / 1000

/-- Static configured home longitude of `HOME_LOCATION` in `backend/main.py`. -/
def HOME_LOCATION_lon : ℚ := 805078 / 10000

/-- A location: latitude, longitude, altitude, mirroring DroneKit's
`LocationGlobalRelative` as used by the source. -/
structure Loc where
  lat : ℚ
  lon : ℚ
  alt : ℚ
  deriving DecidableEq, Repr

/-! ## Mission-home bookkeeping (claim C5)

`goto_location` (lines 264–275) saves `self._home_location` from the
vehicle's `global_relative_frame`, falling back to `global_frame` with
altitude 0 if the first read raises; if both reads raise the exception
propagates (no home is saved and the mission fails).  The return leg
(lines 471–475) targets the saved home, substituting the vehicle's
*current* position when no home was saved.  Only the standalone
`goto_home` (lines 549–555) substitutes the static `HOME_LOCATION`. -/

/-- Embeds the home-saving block of `goto_location` (lines 266–275).
`relRead` is the `global_relative_frame` read, `globRead` the
`global_frame` fallback read; `none` means the read raised. -/
def saveHome (relRead globRead : Option Loc) : Option Loc :=
  match relRead with
  | some l => some l
  | none =>
    match globRead with
    | some g => some ⟨g.lat, g.lon, 0⟩
    | none => none

/-- Embeds the return-leg target selection of `goto_location`
(lines 471–475 and 493): if `_home_location` is `None` the current
position is installed as home, and the goto target is the (possibly
just-installed) home at cruise altitude. -/
def returnTarget (home : Option Loc) (cur : Loc) (cruiseAlt : ℚ) : Loc :=
  match home with
  | some h => ⟨h.lat, h.lon, cruiseAlt⟩
  | none => ⟨cur.lat, cur.lon, cruiseAlt⟩

/-- Embeds the target selection of `goto_home` (lines 550–555): the saved
mission home when present, otherwise the static `HOME_LOCATION`. -/
def gotoHomeTarget (home : Option Loc) : ℚ × ℚ :=
  match home with
  | some h => (h.lat, h.lon)
  | none => (HOME_LOCATION_lat, HOME_LOCATION_lon)

/-! ## Navigation loops (claims C3, C6, C7)

`goto_location` contains two textually identical navigation polling loops
(outbound, lines 305–348, and return, lines 500–537): each one-second tick
reads the position, computes the planar degree-space distance to the
target, runs the stall check (reissue `simple_goto` when the distance has
not shrunk by at least `5e-7` and more than 3 seconds have passed since the
last command), and breaks when the distance drops below `0.00005`.
`goto_home` (lines 561–569) is the simple variant: no stall logic,
threshold `0.0001`. -/

/-- Stall-progress epsilon `5e-7` from lines 329 and 522. -/
def NAV_EPS : ℚ := 5 / 10000000

/-- Arrival threshold `0.00005` of the mission navigation loops
(lines 340 and 534). -/
def NAV_THRESHOLD : ℚ := 5 / 100000

/-- Arrival threshold `0.0001` of the `goto_home` loop (line 566). -/
def GOHOME_THRESHOLD : ℚ := 1 / 10000

/-- Planar squared distance in degree space,
`(lat - lat_t)^2 + (lon - lon_t)^2`; the source takes its square root
(`** 0.5`) on lines 322, 516 and 564. -/
def sqDist (lat lon latT lonT : ℚ) : ℚ := (lat - latT) ^ 2 + (lon - lonT) ^ 2

/-- Embeds one mission navigation polling loop of `goto_location`
(lines 305–348 outbound; lines 500–537 return, whose body is identical).
`dist t` is the distance computed at tick `t` (one tick per second),
`lastDist`/`lastCmd` are the source's `last_distance` and `last_cmd_time`
(times in seconds since loop entry).  Returns the list of ticks at which
`simple_goto` was reissued, and `some t` when the loop broke at tick `t`
with `dist t` below the threshold (`none` when the fuel ran out first).
Per source order, the stall check runs before the arrival check, so a
reissue can happen on the arrival tick itself. -/
def navLoop (dist : Nat → ℚ) (thr : ℚ) : Nat → Nat → Option ℚ → Nat → List Nat × Option Nat
  | 0, _, _, _ => ([], none)
  | f + 1, t, lastDist, lastCmd =>
    let d := dist t
    match lastDist with
    | none =>
      if d < thr then ([], some t)
      else navLoop dist thr f (t + 1) (some d) lastCmd
    | some ld =>
      if d < ld - NAV_EPS ∨ t - lastCmd ≤ 3 then
        if d < thr then ([], some t)
        else navLoop dist thr f (t + 1) (some d) lastCmd
      else
        let rest := if d < thr then ([], some t) else navLoop dist thr f (t + 1) (some d) t
        (t :: rest.1, rest.2)

/-- Embeds the `goto_home` polling loop (lines 561–569): one read per
second, break when the distance drops below `0.0001`, no stall logic. -/
def goHomeLoop (dist : Nat → ℚ) : Nat → Nat → Option Nat
  | 0, _ => none
  | f + 1, t => if dist t < GOHOME_THRESHOLD then some t else goHomeLoop dist f (t + 1)

/-! ## Mission milestone events (claim C6)

The post-arrival portion of `goto_location`: arrival break with
`notify_callback` (lines 340–348), LAND + descent + disarm wait
(lines 350–424), servo release with `payload_dropped` flag
(lines 426–435), second disarm wait, `delivered_callback` gated on
`payload_dropped` (lines 443–447), settle delay, re-arm, return leg and
landing at home (lines 449–547). -/

/-- Milestone events of one `goto_location` run, in source order. -/
inductive MEv where
  | arrived
  | landCmd
  | servoHigh
  | servoLow
  | servoFailLogged
  | delivered
  | rearm
  | returnLeg
  | landedHome
  deriving DecidableEq, Repr

/-- Events after the outbound arrival break, in the order of
`goto_location` lines 350–547.  `servoOk` is whether the
`set_servo(10, 2000); sleep; set_servo(10, 1000)` sequence (lines 428–433)
completed without raising; on failure `payload_dropped` stays `False` and
a warning is logged (line 435), and the mission continues.  The
`delivered_callback` fires only when it is present and `payload_dropped`
(line 443). -/
def deliveryTailEvents (servoOk hasDelivered : Bool) : List MEv :=
  [MEv.landCmd]
    ++ (if servoOk then [MEv.servoHigh, MEv.servoLow] else [MEv.servoFailLogged])
    ++ (if hasDelivered && servoOk then [MEv.delivered] else [])
    ++ [MEv.rearm, MEv.returnLeg, MEv.landedHome]

/-- Milestone-event trace of one `goto_location` execution: nothing is
emitted until the outbound loop breaks; on arrival the `notify_callback`
fires (once, lines 342–346) followed by the delivery tail. -/
def gotoLocationEvents (dist : Nat → ℚ) (fuel : Nat) (servoOk hasNotify hasDelivered : Bool) :
    List MEv :=
  match (navLoop dist NAV_THRESHOLD fuel 0 none 0).2 with
  | none => []
  | some _ => (if hasNotify then [MEv.arrived] else []) ++ deliveryTailEvents servoOk hasDelivered

/-! ## Safety disarm fallback (claim C8)

The disarm wait of `goto_location` (lines 401–423): while the vehicle is
still armed, each tick reads the altitude (`999` stands in when the read
raises, and a `None` attribute is guarded out) and, when the altitude is
below `0.3` m, sends an explicit `MAV_CMD_COMPONENT_ARM_DISARM`. -/

/-- Embeds the disarm-wait loop (lines 401–423).  `modeF` is the reported
flight-mode; the loop never reads it — the parameter records that the
fallback disarm is independent of LAND-mode acceptance.  `altF t = none`
means the altitude read raised or reported `None` (no disarm then, since
the source substitutes `999`).  Returns the ticks at which the explicit
disarm command was sent, until disarm is observed or fuel runs out. -/
def disarmWaitLoop (modeF : Nat → String) (armedF : Nat → Bool) (altF : Nat → Option ℚ) :
    Nat → Nat → List Nat
  | 0, _ => []
  | f + 1, t =>
    if armedF t then
      (match altF t with
        | some a => if a < 3 / 10 then [t] else []
        | none => []) ++ disarmWaitLoop modeF armedF altF f (t + 1)
    else []

/-! ## Arming phase (claim C2)

`arm_and_takeoff` (lines 216–252): set GUIDED and poll unboundedly until
accepted; set `armed` and poll unboundedly until confirmed; send the
best-effort home-lock command (lines 232–244, a write with no reads);
then a second armed poll bounded by a 45-second timeout that raises an
exception carrying the last 5 buffered STATUSTEXT messages (lines
246–252). -/

/-- Vehicle telemetry for the arming phase: the reported mode name and
armed flag at each read index (reads are one second apart). -/
structure Veh where
  mode : Nat → String
  armed : Nat → Bool

/-- Outcome of the arming phase: armed at some read index, the
45-second-timeout exception with its attached diagnostics, or the
observation fuel ran out while the source would still be looping. -/
inductive ArmOutcome where
  | ok (t : Nat)
  | timeoutExc (msgs : List String)
  | outOfFuel
  deriving DecidableEq, Repr

/-- Last `n` elements of a list, Python's `l[-n:]` (line 250 uses
`recent_msgs[-5:]`). -/
def lastN (n : Nat) (l : List String) : List String := l.drop (l.length - n)

/-- Embeds the unbounded mode wait, lines 221–223
(`while self.vehicle.mode.name != "GUIDED": sleep(1)`). -/
def waitModeGuided (v : Veh) : Nat → Nat → Option Nat
  | 0, _ => none
  | f + 1, t => if v.mode t = "GUIDED" then some t else waitModeGuided v f (t + 1)

/-- Embeds the unbounded first armed wait, lines 227–229
(`while not self.vehicle.armed: sleep(1)`). -/
def waitArmedTrue (v : Veh) : Nat → Nat → Option Nat
  | 0, _ => none
  | f + 1, t => if v.armed t then some t else waitArmedTrue v f (t + 1)

/-- Embeds the timed second armed wait, lines 246–252: `k` counts the
one-second sleeps since `start`; when still disarmed after more than 45
seconds, raise with the last 5 STATUSTEXT entries of the ring buffer. -/
def timedArmWait (v : Veh) (msgs : List String) : Nat → Nat → Nat → ArmOutcome
  | 0, _, _ => .outOfFuel
  | f + 1, t, k =>
    if v.armed t then .ok t
    else if k > 45 then .timeoutExc (lastN 5 msgs)
    else timedArmWait v msgs f (t + 1) (k + 1)

/-- Embeds the arming portion of `arm_and_takeoff` (lines 216–252):
mode wait, first armed wait, home-lock write (no reads), timed armed
wait.  `msgs` is the STATUSTEXT ring-buffer content. -/
def armPhase (v : Veh) (msgs : List String) (fuel : Nat) : ArmOutcome :=
  match waitModeGuided v fuel 0 with
  | none => .outOfFuel
  | some t1 =>
    match waitArmedTrue v fuel (t1 + 1) with
    | none => .outOfFuel
    | some t2 => timedArmWait v msgs fuel (t2 + 1) 0

/-- A vehicle that accepts GUIDED but never confirms arming. -/
def vNeverArms : Veh := ⟨fun _ => "GUIDED", fun _ => false⟩

/-- A vehicle that accepts GUIDED, reports armed exactly at read index 1
(the first armed wait), then reads disarmed forever after. -/
def vArmGlitch : Veh := ⟨fun _ => "GUIDED", fun t => t == 1⟩

/-- Sample STATUSTEXT ring-buffer content for concrete evaluations. -/
def demoMsgs : List String :=
  ["STATUSTEXT[4]: PreArm: Compass not calibrated",
   "STATUSTEXT[6]: EKF2 IMU0 is using GPS",
   "STATUSTEXT[6]: Arming motors"]

/-! ## Mission runner record transitions (claim C1)

`perform_delivery` (lines 625–632) wraps the whole state machine in
`try/except Exception` and only prints the error, so no state-machine
exception escapes it.  The `mission` thread body (lines 698–761) marks
the order `COMPLETED` with a completion timestamp and broadcasts
`mission_completed` when `perform_delivery` returns, and marks it
`FAILED: <err>` (without a completion timestamp) and broadcasts
`mission_failed` only when an exception escapes into its own
`try/except`. -/

/-- Result of running the mission state machine body
(`arm_and_takeoff` + `goto_location`): normal return, or an exception
carrying its message. -/
inductive SMResult where
  | ok
  | exc (msg : String)
  deriving DecidableEq, Repr

/-- Embeds `perform_delivery` (lines 625–632): the state machine runs
inside `try/except Exception as e: print(...)`, so both outcomes return
normally. -/
def perform_delivery (sm : SMResult) : SMResult :=
  match sm with
  | .ok => .ok
  | .exc _ => .ok

/-- Mission-record outcome written by the `mission` thread: final status
string, whether `completed_at` was set, and the event type broadcast. -/
structure MissionOutcome where
  status : String
  completedAtSet : Bool
  event : String
  deriving DecidableEq, Repr

/-- Embeds the `mission` thread body (lines 698–761) as a function of the
state-machine result: `perform_delivery` is called, and the `except`
branch (status `FAILED: …`, event `mission_failed`, no `completed_at`)
runs only if an exception escapes it. -/
def missionThread (sm : SMResult) : MissionOutcome :=
  match perform_delivery sm with
  | .ok => ⟨"COMPLETED", true, "mission_completed"⟩
  | .exc e => ⟨"FAILED: " ++ e, false, "mission_failed"⟩

/-- The arming-timeout exception text of line 250 with an empty recent
message list, a concrete unrecovered state-machine exception. -/
def armingTimeoutMsg : String := "Arming timeout. Recent FCU messages: []"

/-! ## Broadcaster (claim C9)

`ConnectionManager.broadcast` (lines 69–81): send to every subscriber in
order, collecting failed ones in `disconnected`; after the pass, remove
each collected subscriber from `active_connections` (Python
`list.remove`: first occurrence, guarded by membership). -/

/-- Subscriber connections, identified by a number. -/
abbrev Conn := Nat

/-- Embeds the send pass of `broadcast` (lines 70–76): returns the
connections a send was attempted to (in order) and the `disconnected`
list of failed ones.  `fails c = true` means `send_text` raises for `c`. -/
def sendAll : List Conn → (Conn → Bool) → List Conn × List Conn
  | [], _ => ([], [])
  | c :: rest, fails =>
    let r := sendAll rest fails
    (c :: r.1, if fails c then c :: r.2 else r.2)

/-- Python `list.remove`: removes the first occurrence. -/
def removeFirst : List Conn → Conn → List Conn
  | [], _ => []
  | x :: xs, c => if x = c then xs else x :: removeFirst xs c

/-- Embeds the removal pass of `broadcast` (lines 79–81): for each
collected connection, remove it from the active list if still present. -/
def removeDisconnected (active : List Conn) (dis : List Conn) : List Conn :=
  dis.foldl (fun acc c => if c ∈ acc then removeFirst acc c else acc) active

/-- Embeds a full `broadcast` pass: the active-connections list after the
sends and removals. -/
def broadcastPass (active : List Conn) (fails : Conn → Bool) : List Conn :=
  removeDisconnected active (sendAll active fails).2

/-! ## Status read (claim C10)

`DroneDelivery.get_status` (lines 594–618): a `try` that reads the
telemetry and builds a full status, and an `except` that returns the
fallback status; `self.connection_string` (set once in `__init__`,
line 125) is used in both branches. -/

/-- One successful telemetry read used by `get_status`. -/
structure Telemetry where
  armed : Bool
  modeName : String
  lat : ℚ
  lon : ℚ
  alt : ℚ
  battery : Option ℚ
  deriving DecidableEq, Repr

/-- The `DroneStatus` response model (lines 111–117). -/
structure DroneStatus where
  armed : Bool
  mode : String
  altitude : ℚ
  connection_string : String
  battery : Option ℚ
  location : Option (ℚ × ℚ × ℚ)
  deriving DecidableEq, Repr

/-- Embeds `get_status` (lines 594–618): `read = none` when any telemetry
access raises, in which case the `except` branch returns the fallback
status.  `cs` is the `connection_string` the link was created with. -/
def get_status (cs : String) (read : Option Telemetry) : DroneStatus :=
  match read with
  | some tel =>
    ⟨tel.armed, tel.modeName, tel.alt, cs, tel.battery, some (tel.lat, tel.lon, tel.alt)⟩
  | none => ⟨false, "UNKNOWN", 0, cs, none, none⟩

/-! ## Lock discipline of one mission (claim C4)

`perform_delivery` calls `arm_and_takeoff` and then `goto_location`; each
acquires `self.lock` separately (`with self.lock:` at lines 217 and 265),
so the lock is released between the two sections.  The model below gives
a mutex interleaving semantics for two concurrent mission threads. -/

/-- Thread identifiers for two concurrent missions on one drone. -/
inductive Tid where
  | ta
  | tb
  deriving DecidableEq, Repr

/-- Flight-affecting commands issued inside the locked sections. -/
inductive Cmd where
  | setGuided
  | armMotors
  | lockHome
  | takeoffCmd
  | gotoTarget
  | landTarget
  | servoDrop
  | returnHome
  | landHome
  deriving DecidableEq, Repr

/-- Events of the interleaving semantics: lock acquire, lock release, or
a command issued on the vehicle link by a thread. -/
inductive Ev where
  | acq (t : Tid)
  | rel (t : Tid)
  | cmd (t : Tid) (c : Cmd)
  deriving DecidableEq, Repr

/-- The `with self.lock:` section of `arm_and_takeoff` (lines 216–262). -/
def armSection (t : Tid) : List Ev :=
  [Ev.acq t, Ev.cmd t .setGuided, Ev.cmd t .armMotors, Ev.cmd t .lockHome,
   Ev.cmd t .takeoffCmd, Ev.rel t]

/-- The `with self.lock:` section of `goto_location` (lines 264–547). -/
def navSection (t : Tid) : List Ev :=
  [Ev.acq t, Ev.cmd t .gotoTarget, Ev.cmd t .landTarget, Ev.cmd t .servoDrop,
   Ev.cmd t .returnHome, Ev.cmd t .landHome, Ev.rel t]

/-- The lock/command event sequence of one `perform_delivery` execution:
two separately locked sections (lines 628 and 630). -/
def missionProg (t : Tid) : List Ev := armSection t ++ navSection t

/-- Whether event `e` is allowed by the mutex when `h` holds the lock:
acquisition requires a free lock, release requires ownership. -/
def lockOk : Option Tid → Ev → Bool
  | h, .acq _ => h.isNone
  | h, .rel t => h == some t
  | _, .cmd _ _ => true

/-- Lock holder after event `e`. -/
def nextHolder : Option Tid → Ev → Option Tid
  | _, .acq t => some t
  | _, .rel _ => none
  | h, .cmd _ _ => h

/-- Checks that `tr` is a complete mutex-valid interleaving of the two
thread programs `pa` and `pb` starting with lock holder `h`: each event
is the next event of one thread and respects the lock. -/
def runCheck : Option Tid → List Ev → List Ev → List Ev → Bool
  | _, pa, pb, [] => pa.isEmpty && pb.isEmpty
  | h, pa, pb, e :: tr =>
    (match pa with
      | a :: pa' => a == e && lockOk h e && runCheck (nextHolder h e) pa' pb tr
      | [] => false)
    ||
    (match pb with
      | b :: pb' => b == e && lockOk h e && runCheck (nextHolder h e) pa pb' tr
      | [] => false)

/-- Scans a trace checking that every command is issued by the thread
currently holding the lock (so commands inside one thread's locked
section never interleave with the other thread's commands). -/
def exclScan : Option Tid → List Ev → Bool
  | _, [] => true
  | h, Ev.acq t :: tr => h.isNone && exclScan (some t) tr
  | h, Ev.rel t :: tr => (h == some t) && exclScan none tr
  | h, Ev.cmd t _ :: tr => (h == some t) && exclScan h tr

/-- Well-formedness of a thread program: commands occur only inside an
`acq`/`rel` section, sections do not nest, and the program ends outside a
section.  `inSec` is whether the program starts inside a section. -/
def wfProg (t : Tid) : Bool → List Ev → Bool
  | inSec, [] => !inSec
  | inSec, Ev.acq t' :: rest => t' == t && !inSec && wfProg t true rest
  | inSec, Ev.rel t' :: rest => t' == t && inSec && wfProg t false rest
  | inSec, Ev.cmd t' _ :: rest => t' == t && inSec && wfProg t inSec rest

/-- Thread identities of the command events of a trace, in order. -/
def cmdTids (tr : List Ev) : List Tid :=
  tr.filterMap fun e =>
    match e with
    | .cmd t _ => some t
    | _ => none

/-- `blockOrder x y l` holds when `l` is a (possibly empty) block of `x`s
followed by a (possibly empty) block of `y`s. -/
def blockOrder (x y : Tid) (l : List Tid) : Bool := (l.dropWhile (· == x)).all (· == y)

/-- A trace is command-serialized when all commands of one mission
precede all commands of the other. -/
def serializedBool (tr : List Ev) : Bool :=
  blockOrder .ta .tb (cmdTids tr) || blockOrder .tb .ta (cmdTids tr)

/-- The fully sequential schedule: mission A runs to completion, then
mission B. -/
def serialTrace : List Ev := missionProg .ta ++ missionProg .tb

/-- A schedule where mission B acquires the lock between mission A's
arming section and its navigation section. -/
def mixTrace : List Ev := armSection .ta ++ armSection .tb ++ navSection .ta ++ navSection .tb

/-! ## Theorems -/

/-- C1: evaluation of the mission-runner record transition.  When
`perform_delivery` returns, the record is marked `COMPLETED` with a
completion timestamp and `mission_completed` is broadcast — but this is
also what happens when the state machine raised an unrecovered exception
(here the arming timeout), because `perform_delivery` catches every
exception and returns normally, so the `FAILED`/`mission_failed` branch
of the `mission` thread is not reached by state-machine errors. -/
theorem C1_mission_outcome_on_state_machine_error :
    missionThread (SMResult.exc armingTimeoutMsg) =
      { status := "COMPLETED", completedAtSet := true, event := "mission_completed" } ∧
    missionThread SMResult.ok =
      { status := "COMPLETED", completedAtSet := true, event := "mission_completed" } :=
  ⟨rfl, rfl⟩

/-- Helper: if the vehicle never reports the GUIDED mode, the first wait
loop of `arm_and_takeoff` spins until the observation fuel runs out. -/
theorem waitModeGuided_none (v : Veh) (hm : ∀ t, ¬ v.mode t = "GUIDED") :
    ∀ (f t0 : Nat), waitModeGuided v f t0 = none := by
  intro f
  induction f with
  | zero => intro t0; rfl
  | succ f ih =>
    intro t0
    simp only [waitModeGuided, if_neg (hm t0)]
    exact ih (t0 + 1)

/-- Helper: if the vehicle never reports armed, the first armed wait of
`arm_and_takeoff` spins until the observation fuel runs out. -/
theorem waitArmedTrue_none (v : Veh) (hv : ∀ t, v.armed t = false) :
    ∀ (f t0 : Nat), waitArmedTrue v f t0 = none := by
  intro f
  induction f with
  | zero => intro t0; rfl
  | succ f ih =>
    intro t0
    simp only [waitArmedTrue, hv t0, Bool.false_eq_true, if_false]
    exact ih (t0 + 1)

/-- C2 counterexample: a vehicle that accepts GUIDED but never confirms
arming is still looping — and has raised no exception — after 100
seconds, far beyond the claimed 45-second bound: the first armed wait
(lines 227–229) has no timeout. -/
theorem C2_counterexample :
    armPhase vNeverArms demoMsgs 100 = ArmOutcome.outOfFuel ∧ 45 < 100 :=
  ⟨by decide, by decide⟩

/-- C2 (amended): the mode wait and the first armed wait of
`arm_and_takeoff` are unbounded — a vehicle that never accepts the mode
or never confirms arming loops forever and never raises; the 45-second
timeout belongs to a second armed poll performed after arming was already
confirmed once, and on that timeout the operation raises an exception
carrying the last 5 recorded STATUSTEXT messages. -/
theorem C2_arming_timeout_amended :
    (∀ (v : Veh) (msgs : List String) (fuel : Nat),
        (∀ t, ¬ v.mode t = "GUIDED") → armPhase v msgs fuel = ArmOutcome.outOfFuel) ∧
    (∀ (v : Veh) (msgs : List String) (fuel : Nat) (ms : List String),
        (∀ t, v.armed t = false) → armPhase v msgs fuel ≠ ArmOutcome.timeoutExc ms) ∧
    armPhase vArmGlitch demoMsgs 200 = ArmOutcome.timeoutExc (lastN 5 demoMsgs) := by
  refine ⟨?_, ?_, by decide⟩
  · intro v msgs fuel hm
    unfold armPhase
    rw [waitModeGuided_none v hm fuel 0]
  · intro v msgs fuel ms hv
    unfold armPhase
    cases hmode : waitModeGuided v fuel 0 with
    | none => simp
    | some t1 =>
      dsimp only
      rw [waitArmedTrue_none v hv fuel (t1 + 1)]
      simp

/-- C2 witness: the amended theorem applied to the never-arming vehicle
at 60 seconds of observation. -/
theorem C2_witness :
    armPhase vNeverArms demoMsgs 60 ≠ ArmOutcome.timeoutExc [] :=
  C2_arming_timeout_amended.2.1 vNeverArms demoMsgs 60 [] (fun _ => rfl)

/-- C5 counterexample: in the mission return leg, when no mission home
was saved the navigation target is the vehicle's current position, not
the static `HOME_LOCATION`. -/
theorem C5_counterexample :
    returnTarget none ⟨1, 2, 20⟩ 20 = ⟨1, 2, 20⟩ ∧
    ¬ returnTarget none ⟨1, 2, 20⟩ 20 = ⟨HOME_LOCATION_lat, HOME_LOCATION_lon, 20⟩ := by
  refine ⟨rfl, ?_⟩
  intro h
  have h1 : (1 : ℚ) = HOME_LOCATION_lat := congrArg Loc.lat h
  rw [HOME_LOCATION_lat] at h1
  norm_num at h1

/-- C5 (amended): the mission home is always saved from the vehicle's
read position (relative frame, or global frame with altitude 0), never
from configuration; the mission return leg targets the saved home and
substitutes the vehicle's current position when none was saved; only the
standalone go-home operation substitutes the static `HOME_LOCATION`. -/
theorem C5_home_selection_amended :
    (∀ (relLoc : Loc) (globRead : Option Loc), saveHome (some relLoc) globRead = some relLoc) ∧
    (∀ globLoc : Loc, saveHome none (some globLoc) = some ⟨globLoc.lat, globLoc.lon, 0⟩) ∧
    saveHome none none = none ∧
    (∀ (h cur : Loc) (cr : ℚ), returnTarget (some h) cur cr = ⟨h.lat, h.lon, cr⟩) ∧
    (∀ (cur : Loc) (cr : ℚ), returnTarget none cur cr = ⟨cur.lat, cur.lon, cr⟩) ∧
    (∀ h : Loc, gotoHomeTarget (some h) = (h.lat, h.lon)) ∧
    gotoHomeTarget none = (HOME_LOCATION_lat, HOME_LOCATION_lon) :=
  ⟨fun _ _ => rfl, fun _ => rfl, rfl, fun _ _ _ => rfl, fun _ _ => rfl, fun _ => rfl, rfl⟩

/-- Helper: the send pass attempts delivery to every subscriber in
order, regardless of which sends fail. -/
theorem sendAll_fst (fails : Conn → Bool) : ∀ l : List Conn, (sendAll l fails).1 = l := by
  intro l
  induction l with
  | nil => rfl
  | cons c rest ih => simp [sendAll, ih]

/-- Helper: the `disconnected` list collected by the send pass is exactly
the failing subscribers, in order. -/
theorem sendAll_snd (fails : Conn → Bool) :
    ∀ l : List Conn, (sendAll l fails).2 = l.filter fails := by
  intro l
  induction l with
  | nil => rfl
  | cons c rest ih =>
    by_cases hc : fails c <;> simp [sendAll, ih, List.filter_cons, hc]

/-- Helper: one step of the removal pass. -/
theorem removeDisconnected_cons (acc : List Conn) (d : Conn) (ds : List Conn) :
    removeDisconnected acc (d :: ds) =
      removeDisconnected (if d ∈ acc then removeFirst acc d else acc) ds := rfl

/-- Helper: removing connections different from the head leaves the head
in place. -/
theorem removeDisconnected_cons_head (c : Conn) :
    ∀ (ds acc : List Conn), (∀ v ∈ ds, v ≠ c) →
      removeDisconnected (c :: acc) ds = c :: removeDisconnected acc ds := by
  intro ds
  induction ds with
  | nil => intro acc _; rfl
  | cons d ds ih =>
    intro acc hne
    have hdc : d ≠ c := hne d (by simp)
    have hrest : ∀ v ∈ ds, v ≠ c := fun v hv => hne v (by simp [hv])
    rw [removeDisconnected_cons, removeDisconnected_cons]
    by_cases hd : d ∈ acc
    · have h1 : d ∈ c :: acc := by simp [hd]
      rw [if_pos h1, if_pos hd]
      have h2 : removeFirst (c :: acc) d = c :: removeFirst acc d := by
        simp [removeFirst, Ne.symm hdc]
      rw [h2]
      exact ih (removeFirst acc d) hrest
    · have h1 : ¬ d ∈ c :: acc := by simp [hd, hdc]
      rw [if_neg h1, if_neg hd]
      exact ih acc hrest

/-- Helper: removing the collected failing subscribers from the active
list yields exactly the non-failing subscribers, in order. -/
theorem removeDisconnected_filter (fails : Conn → Bool) :
    ∀ l : List Conn, removeDisconnected l (l.filter fails) = l.filter (fun c => !(fails c)) := by
  intro l
  induction l with
  | nil => rfl
  | cons c rest ih =>
    by_cases hc : fails c
    · rw [List.filter_cons_of_pos (by simpa using hc), removeDisconnected_cons]
      have hmem : c ∈ c :: rest := by simp
      rw [if_pos hmem]
      have h1 : removeFirst (c :: rest) c = rest := by simp [removeFirst]
      rw [h1, List.filter_cons_of_neg (by simpa using hc)]
      exact ih
    · rw [List.filter_cons_of_neg (by simpa using hc)]
      have hne : ∀ v ∈ rest.filter fails, v ≠ c := by
        intro v hv hvc
        rcases List.mem_filter.mp hv with ⟨_, hfv⟩
        rw [hvc] at hfv
        exact hc hfv
      rw [removeDisconnected_cons_head c (rest.filter fails) rest hne,
        List.filter_cons_of_pos (by simpa using hc)]
      rw [ih]

/-- C9: a full broadcast pass attempts the send to every subscriber in
order — a failure never prevents the attempt to the others — and only
after the pass are the failing subscribers removed, so the active list
used by subsequent broadcasts is exactly the non-failing subscribers. -/
theorem C9_broadcast_isolation :
    ∀ (active : List Conn) (fails : Conn → Bool),
      (sendAll active fails).1 = active ∧
      broadcastPass active fails = active.filter (fun c => !(fails c)) ∧
      (∀ c : Conn, c ∈ broadcastPass active fails ↔ c ∈ active ∧ fails c = false) := by
  intro active fails
  have hpass : broadcastPass active fails = active.filter (fun c => !(fails c)) := by
    rw [broadcastPass, sendAll_snd fails active]
    exact removeDisconnected_filter fails active
  refine ⟨sendAll_fst fails active, hpass, ?_⟩
  intro c
  rw [hpass, List.mem_filter]
  simp

/-- Helper: unfolding of one tick of the navigation loop, projected on
the arrival component. -/
theorem navLoop_succ_snd (dist : Nat → ℚ) (thr : ℚ) (f t0 : Nat) (ld : Option ℚ) (lc : Nat) :
    (navLoop dist thr (f + 1) t0 ld lc).2 =
      if dist t0 < thr then some t0
      else
        match ld with
        | none => (navLoop dist thr f (t0 + 1) (some (dist t0)) lc).2
        | some l =>
          if dist t0 < l - NAV_EPS ∨ t0 - lc ≤ 3 then
            (navLoop dist thr f (t0 + 1) (some (dist t0)) lc).2
          else (navLoop dist thr f (t0 + 1) (some (dist t0)) t0).2 := by
  cases ld with
  | none => by_cases hd : dist t0 < thr <;> simp [navLoop, hd]
  | some l =>
    by_cases hst : dist t0 < l - NAV_EPS ∨ t0 - lc ≤ 3 <;>
      by_cases hd : dist t0 < thr <;>
        simp [navLoop, hst, hd] <;>
          split_ifs <;> rfl

/-- Helper: whether and when the navigation loop arrives does not depend
on the reissue timer (the stall logic only reissues the goto command; the
break condition reads the distance alone). -/
theorem navLoop_snd_lc (dist : Nat → ℚ) (thr : ℚ) :
    ∀ (f t0 : Nat) (ld : Option ℚ) (lc lc' : Nat),
      (navLoop dist thr f t0 ld lc).2 = (navLoop dist thr f t0 ld lc').2 := by
  intro f
  induction f with
  | zero => intro _ _ _ _; rfl
  | succ f ih =>
    intro t0 ld lc lc'
    rw [navLoop_succ_snd, navLoop_succ_snd]
    by_cases hd : dist t0 < thr
    · simp [hd]
    · simp only [if_neg hd]
      cases ld with
      | none => exact ih (t0 + 1) (some (dist t0)) lc lc'
      | some l =>
        have e1 := ih (t0 + 1) (some (dist t0)) lc t0
        have e2 := ih (t0 + 1) (some (dist t0)) lc' t0
        by_cases h1 : dist t0 < l - NAV_EPS ∨ t0 - lc ≤ 3 <;>
          by_cases h2 : dist t0 < l - NAV_EPS ∨ t0 - lc' ≤ 3 <;>
            simp [h1, h2, e1, e2]

/-- Helper: the navigation loop arrives at tick `t` exactly when `t` is
the first tick from loop entry whose computed distance is below the
threshold, and the fuel reaches it. -/
theorem navLoop_arrival_iff (dist : Nat → ℚ) (thr : ℚ) :
    ∀ (f t0 : Nat) (ld : Option ℚ) (lc t : Nat),
      (navLoop dist thr f t0 ld lc).2 = some t ↔
        (t0 ≤ t ∧ t < t0 + f ∧ dist t < thr ∧ ∀ s, t0 ≤ s → s < t → ¬ dist s < thr) := by
  intro f
  induction f with
  | zero =>
    intro t0 ld lc t
    constructor
    · intro h; exact absurd h (by simp [navLoop])
    · rintro ⟨h1, h2, _, _⟩; omega
  | succ f ih =>
    intro t0 ld lc t
    have hsub : (navLoop dist thr (f + 1) t0 ld lc).2 =
        if dist t0 < thr then some t0
        else (navLoop dist thr f (t0 + 1) (some (dist t0)) lc).2 := by
      rw [navLoop_succ_snd]
      by_cases hd : dist t0 < thr
      · rw [if_pos hd, if_pos hd]
      · rw [if_neg hd, if_neg hd]
        cases ld with
        | none => rfl
        | some l =>
          dsimp only
          by_cases h1 : dist t0 < l - NAV_EPS ∨ t0 - lc ≤ 3
          · rw [if_pos h1]
          · rw [if_neg h1]
            exact navLoop_snd_lc dist thr f (t0 + 1) (some (dist t0)) t0 lc
    rw [hsub]
    by_cases hd : dist t0 < thr
    · rw [if_pos hd]
      constructor
      · intro h
        have ht : t0 = t := by injection h
        subst ht
        exact ⟨le_refl t0, by omega, hd, fun s hs1 hs2 => by omega⟩
      · rintro ⟨h1, _, _, h4⟩
        rcases Nat.eq_or_lt_of_le h1 with rfl | hlt
        · rfl
        · exact absurd hd (h4 t0 (le_refl _) hlt)
    · rw [if_neg hd, ih (t0 + 1) (some (dist t0)) lc t]
      constructor
      · rintro ⟨h1, h2, h3, h4⟩
        refine ⟨by omega, by omega, h3, ?_⟩
        intro s hs1 hs2
        rcases Nat.eq_or_lt_of_le hs1 with rfl | hlt
        · exact hd
        · exact h4 s (by omega) hs2
      · rintro ⟨h1, h2, h3, h4⟩
        have ht0 : ¬ t = t0 := by rintro rfl; exact hd h3
        exact ⟨by omega, by omega, h3, fun s hs1 hs2 => h4 s (by omega) hs2⟩

/-- Helper: on a stationary link (constant distance, not yet at the
threshold), starting from a state reached at most 4 seconds after the
last command, the goto is reissued at the 4-second mark and then every 4
seconds. -/
theorem navLoop_const_mem (c thr : ℚ) (hthr : ¬ c < thr) :
    ∀ (f t lc j : Nat), lc < t → t ≤ lc + 4 → lc + 4 * (j + 1) < t + f →
      lc + 4 * (j + 1) ∈ (navLoop (fun _ => c) thr f t (some c) lc).1 := by
  have heps : (0 : ℚ) < NAV_EPS := by norm_num [NAV_EPS]
  intro f
  induction f with
  | zero => intro t lc j h1 h2 h3; omega
  | succ f ih =>
    intro t lc j h1 h2 h3
    simp only [navLoop]
    by_cases hstall : t - lc ≤ 3
    · rw [if_pos (Or.inr hstall), if_neg hthr]
      exact ih (t + 1) lc j (by omega) (by omega) (by omega)
    · have ht4 : t = lc + 4 := by omega
      have hcond : ¬ (c < c - NAV_EPS ∨ t - lc ≤ 3) := by
        rintro (hc | hc)
        · linarith
        · exact hstall hc
      rw [if_neg hcond, if_neg hthr]
      dsimp only
      rcases j with _ | j'
      · simp only [List.mem_cons]
        left
        omega
      · simp only [List.mem_cons]
        right
        have hmem := ih (t + 1) t j' (by omega) (by omega) (by omega)
        have heq : lc + 4 * (j' + 1 + 1) = t + 4 * (j' + 1) := by omega
        rw [heq]
        exact hmem

/-- Helper: on a stationary link every reissue tick from loop entry is a
positive multiple of 4 seconds (never earlier than 4 seconds after the
previous command). -/
theorem navLoop_const_shape (c thr : ℚ) (hthr : ¬ c < thr) :
    ∀ (f t lc r : Nat), lc < t → t ≤ lc + 4 →
      r ∈ (navLoop (fun _ => c) thr f t (some c) lc).1 → ∃ k, r = lc + 4 * (k + 1) := by
  have heps : (0 : ℚ) < NAV_EPS := by norm_num [NAV_EPS]
  intro f
  induction f with
  | zero =>
    intro t lc r _ _ hmem
    exact absurd hmem (by simp [navLoop])
  | succ f ih =>
    intro t lc r h1 h2 hmem
    simp only [navLoop] at hmem
    by_cases hstall : t - lc ≤ 3
    · rw [if_pos (Or.inr hstall), if_neg hthr] at hmem
      exact ih (t + 1) lc r (by omega) (by omega) hmem
    · have ht4 : t = lc + 4 := by omega
      have hcond : ¬ (c < c - NAV_EPS ∨ t - lc ≤ 3) := by
        rintro (hc | hc)
        · linarith
        · exact hstall hc
      rw [if_neg hcond, if_neg hthr] at hmem
      dsimp only at hmem
      rcases List.mem_cons.mp hmem with rfl | hmem'
      · exact ⟨0, by omega⟩
      · obtain ⟨k, hk⟩ := ih (t + 1) t r (by omega) (by omega) hmem'
        exact ⟨k + 1, by omega⟩

/-- C3 counterexample: a link stationary at distance `1/100` degrees from
the target.  Over the first 13 seconds the loop does not complete and it
does reissue (tick 4 is a reissue), but every reissue tick is a positive
multiple of 4 — so the 3-second window of seconds 5–7 (during which the
link has been stationary for far more than 3 seconds) contains no
reissue: the reissue period is 4 seconds, not 3. -/
theorem C3_counterexample :
    List.filter (fun r => decide (5 ≤ r ∧ r ≤ 7))
        (navLoop (fun _ => (1 : ℚ) / 100) NAV_THRESHOLD 13 0 none 0).1 = [] ∧
    (navLoop (fun _ => (1 : ℚ) / 100) NAV_THRESHOLD 13 0 none 0).2 = none ∧
    4 ∈ (navLoop (fun _ => (1 : ℚ) / 100) NAV_THRESHOLD 13 0 none 0).1 := by
  have hthr : ¬ (1 : ℚ) / 100 < NAV_THRESHOLD := by norm_num [NAV_THRESHOLD]
  have hstep : navLoop (fun _ => (1 : ℚ) / 100) NAV_THRESHOLD 13 0 none 0 =
      navLoop (fun _ => (1 : ℚ) / 100) NAV_THRESHOLD 12 1 (some ((1 : ℚ) / 100)) 0 := by
    have h13 : (13 : Nat) = 12 + 1 := rfl
    rw [h13, navLoop.eq_2, if_neg hthr]
  refine ⟨?_, ?_, ?_⟩
  · rw [hstep, List.filter_eq_nil_iff]
    intro r hr
    obtain ⟨k, rfl⟩ := navLoop_const_shape ((1 : ℚ) / 100) NAV_THRESHOLD hthr 12 1 0 r
      (by omega) (by omega) hr
    simp only [decide_eq_true_eq]
    omega
  · cases hval : (navLoop (fun _ => (1 : ℚ) / 100) NAV_THRESHOLD 13 0 none 0).2 with
    | none => rfl
    | some t =>
      exact absurd ((navLoop_arrival_iff _ _ 13 0 none 0 t).mp hval).2.2.1 hthr
  · rw [hstep]
    have := navLoop_const_mem ((1 : ℚ) / 100) NAV_THRESHOLD hthr 12 1 0 0
      (by omega) (by omega) (by omega)
    simpa using this

/-- C3 (amended): per tick, the goto is reissued exactly when the
distance has not shrunk by at least `5e-7` degrees and more than 3
seconds have elapsed since the last command, resetting the timer; hence,
with one-second polling, a stationary link receives a reissue every 4
seconds (at least one per 4-second window), and the loop never completes
while the distance is at or above the threshold. -/
theorem C3_stall_reissue_amended :
    (∀ (dist : Nat → ℚ) (thr : ℚ) (f t0 lc t : Nat) (ld : Option ℚ),
        (navLoop dist thr f t0 ld lc).2 = some t → dist t < thr) ∧
    (∀ (c thr : ℚ) (f j : Nat), ¬ c < thr → 4 * (j + 1) < f →
        4 * (j + 1) ∈ (navLoop (fun _ => c) thr f 0 none 0).1) := by
  constructor
  · intro dist thr f t0 lc t ld h
    exact ((navLoop_arrival_iff dist thr f t0 ld lc t).mp h).2.2.1
  · intro c thr f j hthr hj
    obtain ⟨f', rfl⟩ : ∃ f', f = f' + 1 := ⟨f - 1, by omega⟩
    have hstep : (navLoop (fun _ => c) thr (f' + 1) 0 none 0).1 =
        (navLoop (fun _ => c) thr f' 1 (some c) 0).1 := by
      simp only [navLoop]
      rw [if_neg hthr]
    rw [hstep]
    have := navLoop_const_mem c thr hthr f' 1 0 j (by omega) (by omega) (by omega)
    simpa using this

/-- C3 witness: the amended theorem at a link arriving immediately
(arrival implies distance below threshold) and at a stationary link at
distance 1 with threshold 1/2 (reissue at the 4-second mark). -/
theorem C3_witness :
    ((0 : ℚ) < 1) ∧ 4 ∈ (navLoop (fun _ => (1 : ℚ)) ((1 : ℚ) / 2) 6 0 none 0).1 := by
  constructor
  · have h0 : (navLoop (fun _ => (0 : ℚ)) 1 (0 + 1) 0 none 0).2 = some 0 := by
      simp only [navLoop]
      rw [if_pos (by norm_num)]
    exact C3_stall_reissue_amended.1 (fun _ => (0 : ℚ)) 1 (0 + 1) 0 0 0 none h0
  · have := C3_stall_reissue_amended.2 1 ((1 : ℚ) / 2) 6 0 (by norm_num) (by norm_num)
    simpa using this

/-- Helper: the `goto_home` loop arrives at tick `t` exactly when `t` is
the first tick whose distance is below its threshold, within fuel. -/
theorem goHomeLoop_iff (dist : Nat → ℚ) :
    ∀ (f t0 t : Nat),
      goHomeLoop dist f t0 = some t ↔
        (t0 ≤ t ∧ t < t0 + f ∧ dist t < GOHOME_THRESHOLD ∧
         ∀ s, t0 ≤ s → s < t → ¬ dist s < GOHOME_THRESHOLD) := by
  intro f
  induction f with
  | zero =>
    intro t0 t
    constructor
    · intro h; exact absurd h (by simp [goHomeLoop])
    · rintro ⟨h1, h2, _, _⟩; omega
  | succ f ih =>
    intro t0 t
    simp only [goHomeLoop]
    by_cases hd : dist t0 < GOHOME_THRESHOLD
    · rw [if_pos hd]
      constructor
      · intro h
        have ht : t0 = t := by injection h
        subst ht
        exact ⟨le_refl t0, by omega, hd, fun s hs1 hs2 => by omega⟩
      · rintro ⟨h1, _, _, h4⟩
        rcases Nat.eq_or_lt_of_le h1 with rfl | hlt
        · rfl
        · exact absurd hd (h4 t0 (le_refl _) hlt)
    · rw [if_neg hd, ih (t0 + 1) t]
      constructor
      · rintro ⟨h1, h2, h3, h4⟩
        refine ⟨by omega, by omega, h3, ?_⟩
        intro s hs1 hs2
        rcases Nat.eq_or_lt_of_le hs1 with rfl | hlt
        · exact hd
        · exact h4 s (by omega) hs2
      · rintro ⟨h1, h2, h3, h4⟩
        have ht0 : ¬ t = t0 := by rintro rfl; exact hd h3
        exact ⟨by omega, by omega, h3, fun s hs1 hs2 => h4 s (by omega) hs2⟩

/-- Helper: for a nonnegative quantity, being below a positive bound is
the same as its square being below the bound's square (the source
compares `((dlat)**2 + (dlon)**2) ** 0.5` with the threshold; we compare
the squares). -/
theorem rat_lt_iff_sq_lt (a b : ℚ) (ha : 0 ≤ a) (hb : 0 < b) : a < b ↔ a ^ 2 < b ^ 2 := by
  constructor
  · intro h; nlinarith
  · intro h
    by_contra hab
    push_neg at hab
    nlinarith

/-- C7: when `dist` is the planar Euclidean degree-space distance to the
target (the nonnegative square root of `sqDist`, as computed on lines
322/516/564), the mission navigation loop completes exactly at the first
tick where that distance is below `0.00005` degrees, and the `goto_home`
loop exactly at the first tick where it is below `0.0001` degrees. -/
theorem C7_distance_and_thresholds (posStream : Nat → ℚ × ℚ) (tgt : ℚ × ℚ) (dist : Nat → ℚ)
    (hd : ∀ s, 0 ≤ dist s ∧
      dist s ^ 2 = sqDist (posStream s).1 (posStream s).2 tgt.1 tgt.2) :
    (∀ (f t : Nat),
        (navLoop dist NAV_THRESHOLD f 0 none 0).2 = some t ↔
          (t < f ∧ sqDist (posStream t).1 (posStream t).2 tgt.1 tgt.2 < NAV_THRESHOLD ^ 2 ∧
           ∀ s, s < t →
             ¬ sqDist (posStream s).1 (posStream s).2 tgt.1 tgt.2 < NAV_THRESHOLD ^ 2)) ∧
    (∀ (f t : Nat),
        goHomeLoop dist f 0 = some t ↔
          (t < f ∧ sqDist (posStream t).1 (posStream t).2 tgt.1 tgt.2 < GOHOME_THRESHOLD ^ 2 ∧
           ∀ s, s < t →
             ¬ sqDist (posStream s).1 (posStream s).2 tgt.1 tgt.2 < GOHOME_THRESHOLD ^ 2)) := by
  have hnav : ∀ s, dist s < NAV_THRESHOLD ↔
      sqDist (posStream s).1 (posStream s).2 tgt.1 tgt.2 < NAV_THRESHOLD ^ 2 := by
    intro s
    rw [rat_lt_iff_sq_lt (dist s) NAV_THRESHOLD (hd s).1 (by norm_num [NAV_THRESHOLD]),
      (hd s).2]
  have hhome : ∀ s, dist s < GOHOME_THRESHOLD ↔
      sqDist (posStream s).1 (posStream s).2 tgt.1 tgt.2 < GOHOME_THRESHOLD ^ 2 := by
    intro s
    rw [rat_lt_iff_sq_lt (dist s) GOHOME_THRESHOLD (hd s).1 (by norm_num [GOHOME_THRESHOLD]),
      (hd s).2]
  constructor
  · intro f t
    rw [navLoop_arrival_iff dist NAV_THRESHOLD f 0 none 0 t]
    constructor
    · rintro ⟨_, h2, h3, h4⟩
      exact ⟨by omega, (hnav t).mp h3, fun s hs => fun hc =>
        h4 s (by omega) hs ((hnav s).mpr hc)⟩
    · rintro ⟨h2, h3, h4⟩
      exact ⟨by omega, by omega, (hnav t).mpr h3, fun s _ hs hc =>
        h4 s hs ((hnav s).mp hc)⟩
  · intro f t
    rw [goHomeLoop_iff dist f 0 t]
    constructor
    · rintro ⟨_, h2, h3, h4⟩
      exact ⟨by omega, (hhome t).mp h3, fun s hs => fun hc =>
        h4 s (by omega) hs ((hhome s).mpr hc)⟩
    · rintro ⟨h2, h3, h4⟩
      exact ⟨by omega, by omega, (hhome t).mpr h3, fun s _ hs hc =>
        h4 s hs ((hhome s).mp hc)⟩

/-- C7 witness: a vehicle at planar offset `(3e-6, 4e-6)` degrees, whose
Euclidean distance is exactly `5e-6` degrees, is within the mission
threshold on the first tick. -/
theorem C7_witness :
    (navLoop (fun _ => (5 : ℚ) / 1000000) NAV_THRESHOLD 1 0 none 0).2 = some 0 := by
  have hd : ∀ s : Nat, 0 ≤ (5 : ℚ) / 1000000 ∧
      ((5 : ℚ) / 1000000) ^ 2 =
        sqDist ((3 : ℚ) / 1000000) ((4 : ℚ) / 1000000) 0 0 := by
    intro s
    constructor
    · norm_num
    · norm_num [sqDist]
  exact ((C7_distance_and_thresholds (fun _ => ((3 : ℚ) / 1000000, (4 : ℚ) / 1000000)) (0, 0)
      (fun _ => (5 : ℚ) / 1000000) hd).1 1 0).mpr
    ⟨by norm_num, by norm_num [sqDist, NAV_THRESHOLD], fun s hs => absurd hs (Nat.not_lt_zero s)⟩

/-- C6: once the outbound loop arrives, the "arrived" callback fires
exactly once and strictly before any "delivered" callback; "delivered"
fires only when the servo release reported success; and a servo failure
does not abort the mission (the return leg still completes). -/
theorem C6_arrival_before_delivery (dist : Nat → ℚ) (fuel t : Nat) (servoOk : Bool)
    (harr : (navLoop dist NAV_THRESHOLD fuel 0 none 0).2 = some t) :
    (gotoLocationEvents dist fuel servoOk true true).count MEv.arrived = 1 ∧
    (MEv.delivered ∈ gotoLocationEvents dist fuel servoOk true true → servoOk = true) ∧
    (MEv.delivered ∈ gotoLocationEvents dist fuel servoOk true true →
      (gotoLocationEvents dist fuel servoOk true true).indexOf MEv.arrived <
        (gotoLocationEvents dist fuel servoOk true true).indexOf MEv.delivered) ∧
    MEv.landedHome ∈ gotoLocationEvents dist fuel servoOk true true := by
  have htr : gotoLocationEvents dist fuel servoOk true true =
      MEv.arrived :: deliveryTailEvents servoOk true := by
    unfold gotoLocationEvents
    rw [harr]
    rfl
  rw [htr]
  cases servoOk
  · decide
  · decide

/-- C6 witness: the theorem applied to a link that arrives on the first
tick with a successful servo release. -/
theorem C6_witness :
    (gotoLocationEvents (fun _ => (0 : ℚ)) 1 true true true).count MEv.arrived = 1 ∧
    (MEv.delivered ∈ gotoLocationEvents (fun _ => (0 : ℚ)) 1 true true true → true = true) ∧
    (MEv.delivered ∈ gotoLocationEvents (fun _ => (0 : ℚ)) 1 true true true →
      (gotoLocationEvents (fun _ => (0 : ℚ)) 1 true true true).indexOf MEv.arrived <
        (gotoLocationEvents (fun _ => (0 : ℚ)) 1 true true true).indexOf MEv.delivered) ∧
    MEv.landedHome ∈ gotoLocationEvents (fun _ => (0 : ℚ)) 1 true true true := by
  have harr : (navLoop (fun _ => (0 : ℚ)) NAV_THRESHOLD 1 0 none 0).2 = some 0 := by
    show (navLoop (fun _ => (0 : ℚ)) NAV_THRESHOLD (0 + 1) 0 none 0).2 = some 0
    simp only [navLoop]
    rw [if_pos (by norm_num [NAV_THRESHOLD])]
  exact C6_arrival_before_delivery (fun _ => (0 : ℚ)) 1 0 true harr

/-- C10: `get_status` is total — on a failed telemetry read it returns
the fallback status (`armed = false`, mode `UNKNOWN`, altitude `0`, no
battery, no location) — and in every case the returned
`connection_string` is the descriptor the link was created with. -/
theorem C10_get_status_total :
    ∀ (cs : String) (read : Option Telemetry),
      (get_status cs read).connection_string = cs ∧
      get_status cs none = ⟨false, "UNKNOWN", 0, cs, none, none⟩ := by
  intro cs read
  refine ⟨?_, rfl⟩
  cases read <;> rfl

/-- C8: while the disarm wait is running (the vehicle still reads armed),
any tick whose altitude read is below `0.3` m gets an explicit MAVLink
disarm command — for every reported mode stream, since the loop never
reads the flight mode, so LAND-mode acceptance is irrelevant. -/
theorem C8_safety_disarm (modeF : Nat → String) (armedF : Nat → Bool) (altF : Nat → Option ℚ)
    (f t0 t : Nat) (a : ℚ)
    (hlo : t0 ≤ t) (hhi : t < t0 + f)
    (harm : ∀ s, t0 ≤ s → s ≤ t → armedF s = true)
    (halt : altF t = some a) (hlow : a < 3 / 10) :
    t ∈ disarmWaitLoop modeF armedF altF f t0 := by
  induction f generalizing t0 with
  | zero => omega
  | succ f ih =>
    have harmt0 : armedF t0 = true := harm t0 (le_refl _) hlo
    rw [disarmWaitLoop, if_pos harmt0]
    rcases Nat.eq_or_lt_of_le hlo with rfl | hlt
    · rw [halt]
      simp [hlow]
    · refine List.mem_append_right _ ?_
      exact ih (t0 + 1) (by omega) (by omega) (fun s hs1 hs2 => harm s (by omega) hs2)

/-- C8 witness: a link reporting 0.1 m altitude and armed, in a mode
(`AUTO`) where the LAND transition was not accepted, receives the
explicit disarm on the first tick. -/
theorem C8_witness :
    0 ∈ disarmWaitLoop (fun _ => "AUTO") (fun _ => true) (fun _ => some ((1 : ℚ) / 10)) 1 0 :=
  C8_safety_disarm (fun _ => "AUTO") (fun _ => true) (fun _ => some ((1 : ℚ) / 10)) 1 0 0
    ((1 : ℚ) / 10) (le_refl 0) (by omega) (fun s _ _ => rfl) rfl (by norm_num)

/-- Helper: one valid step of a thread program preserves well-formedness
of both programs under the new lock holder, and extends an exclusivity
scan backwards over the executed event. -/
theorem runCheck_step (t t' : Tid) (hne : ¬ t = t') (h : Option Tid) (e : Ev)
    (rest q tr : List Ev)
    (hwf : wfProg t (h == some t) (e :: rest) = true)
    (hlock : lockOk h e = true) :
    wfProg t ((nextHolder h e) == some t) rest = true ∧
    (wfProg t' (h == some t') q = true → wfProg t' ((nextHolder h e) == some t') q = true) ∧
    (exclScan (nextHolder h e) tr = true → exclScan h (e :: tr) = true) := by
  cases e with
  | acq s =>
    simp only [wfProg, Bool.and_eq_true, beq_iff_eq] at hwf
    obtain ⟨⟨hs, _⟩, hwf'⟩ := hwf
    replace hs := hs.symm
    subst hs
    have hnone : h = none := by
      simpa [lockOk, Option.isNone_iff_eq_none] using hlock
    subst hnone
    have h1 : (some t == some t') = false := by
      simp only [beq_eq_false_iff_ne, ne_eq, Option.some.injEq]
      exact hne
    refine ⟨?_, ?_, ?_⟩
    · simpa [nextHolder] using hwf'
    · intro hq
      simp only [nextHolder, h1]
      rwa [show ((none : Option Tid) == some t') = false from rfl] at hq
    · intro htr
      rw [exclScan]
      simp only [nextHolder] at htr
      simp [htr]
  | rel s =>
    simp only [wfProg, Bool.and_eq_true, beq_iff_eq] at hwf
    obtain ⟨⟨hs, hsec⟩, hwf'⟩ := hwf
    replace hs := hs.symm
    subst hs
    have hh : h = some t := hsec
    subst hh
    have h1 : (some t == some t') = false := by
      simp only [beq_eq_false_iff_ne, ne_eq, Option.some.injEq]
      exact hne
    refine ⟨?_, ?_, ?_⟩
    · exact hwf'
    · intro hq
      rw [h1] at hq
      exact hq
    · intro htr
      rw [exclScan]
      simp only [nextHolder] at htr
      simp [htr]
  | cmd s c =>
    simp only [wfProg, Bool.and_eq_true, beq_iff_eq] at hwf
    obtain ⟨⟨hs, hsec⟩, hwf'⟩ := hwf
    replace hs := hs.symm
    subst hs
    have hh : h = some t := hsec
    subst hh
    refine ⟨?_, ?_, ?_⟩
    · exact hwf'
    · intro hq
      exact hq
    · intro htr
      rw [exclScan]
      simp only [nextHolder] at htr
      simp [htr]

/-- Helper: in any mutex-valid interleaving of two well-formed thread
programs, every command is issued by the thread currently holding the
lock. -/
theorem runCheck_excl :
    ∀ (tr : List Ev) (h : Option Tid) (pa pb : List Ev),
      wfProg Tid.ta (h == some Tid.ta) pa = true →
      wfProg Tid.tb (h == some Tid.tb) pb = true →
      runCheck h pa pb tr = true → exclScan h tr = true := by
  intro tr
  induction tr with
  | nil => intro h pa pb _ _ _; rfl
  | cons e tr ih =>
    intro h pa pb hwa hwb hrun
    cases pa with
    | nil =>
      cases pb with
      | nil =>
        rw [runCheck] at hrun
        simp at hrun
      | cons b pb' =>
        rw [runCheck] at hrun
        simp only [Bool.false_or, Bool.and_eq_true, beq_iff_eq] at hrun
        obtain ⟨⟨hbe, hlock⟩, hrec⟩ := hrun
        subst hbe
        obtain ⟨hwfb', hpres, hstep⟩ :=
          runCheck_step Tid.tb Tid.ta (by simp) h b pb' ([] : List Ev) tr hwb hlock
        exact hstep (ih (nextHolder h b) [] pb' (hpres hwa) hwfb' hrec)
    | cons a pa' =>
      cases pb with
      | nil =>
        rw [runCheck] at hrun
        simp only [Bool.or_false, Bool.and_eq_true, beq_iff_eq] at hrun
        obtain ⟨⟨hae, hlock⟩, hrec⟩ := hrun
        subst hae
        obtain ⟨hwfa', hpres, hstep⟩ :=
          runCheck_step Tid.ta Tid.tb (by simp) h a pa' ([] : List Ev) tr hwa hlock
        exact hstep (ih (nextHolder h a) pa' [] hwfa' (hpres hwb) hrec)
      | cons b pb' =>
        rw [runCheck] at hrun
        rw [Bool.or_eq_true] at hrun
        rcases hrun with hA | hB
        · simp only [Bool.and_eq_true, beq_iff_eq] at hA
          obtain ⟨⟨hae, hlock⟩, hrec⟩ := hA
          subst hae
          obtain ⟨hwfa', hpres, hstep⟩ :=
            runCheck_step Tid.ta Tid.tb (by simp) h a pa' (b :: pb') tr hwa hlock
          exact hstep (ih (nextHolder h a) pa' (b :: pb') hwfa' (hpres hwb) hrec)
        · simp only [Bool.and_eq_true, beq_iff_eq] at hB
          obtain ⟨⟨hbe, hlock⟩, hrec⟩ := hB
          subst hbe
          obtain ⟨hwfb', hpres, hstep⟩ :=
            runCheck_step Tid.tb Tid.ta (by simp) h b pb' (a :: pa') tr hwb hlock
          exact hstep (ih (nextHolder h b) (a :: pa') pb' (hpres hwa) hwfb' hrec)

/-- C4 counterexample: a mutex-valid schedule of two concurrent missions
on the same drone in which mission B's arming commands run between
mission A's arming section and A's navigation section — the trace is not
command-serialized, so the full state machine is not lock-atomic and a
second launch does not block for the first mission's whole duration. -/
theorem C4_counterexample :
    runCheck none (missionProg .ta) (missionProg .tb) mixTrace = true ∧
    serializedBool mixTrace = false := by
  constructor
  · decide
  · decide

/-- C4 (amended): each of the two separately locked sections of
`perform_delivery` (the `arm_and_takeoff` block and the `goto_location`
block) is mutually exclusive — in every mutex-valid interleaving of two
missions, every command runs while its thread holds the link's lock, so
commands never interleave inside a locked section — but the lock is
released between the two sections, so the two missions' sections may
interleave at that boundary. -/
theorem C4_lock_sections_amended :
    ∀ tr : List Ev,
      runCheck none (missionProg .ta) (missionProg .tb) tr = true →
      exclScan none tr = true := by
  intro tr hrun
  have hwa : wfProg Tid.ta ((none : Option Tid) == some Tid.ta) (missionProg .ta) = true := by
    decide
  have hwb : wfProg Tid.tb ((none : Option Tid) == some Tid.tb) (missionProg .tb) = true := by
    decide
  exact runCheck_excl tr none (missionProg .ta) (missionProg .tb) hwa hwb hrun

/-- C4 witness: the amended theorem applied to the fully sequential
schedule. -/
theorem C4_witness : exclScan none serialTrace = true :=
  C4_lock_sections_amended serialTrace (by decide)

end AreoDrone
